import Mathlib

set_option maxRecDepth 4000

/-!
Verification of "The Public Line" generative-animation core.

Shallow embedding of the repository's source:
* `src/utils/geometry.ts` — `getSmoothPath` (smooth curve builder),
* `src/utils/storage.ts` — `Storage` (persistence boundary) and the
  `SimplexNoise` class (seeded permutation tables, `noise2D`, `noise3D`),
* `src/components/AnimationCanvas.tsx` — `generatePoints` (path sampler),
  `renderFrame` frame-index derivation, and stroke playback,
* `src/App.tsx` — `getFrameNumber` and the fragment-submission path.

JavaScript numbers are embedded as exact arithmetic (`ℚ` where the code is
algebraic and exactly representable, `ℝ` where it uses `cos`/`sin`/`sqrt`).
JavaScript's truncating `%` on numbers is `Int.tmod` on integer states and an
explicit truncating remainder on reals; `Math.floor` is `Int.floor`;
`Uint8Array` out-of-range reads yield `undefined`, which coerces to `0` on a
`Uint8Array` write, and out-of-range writes are dropped — both are modelled
explicitly in the table-shuffle semantics.
-/

/-- `Point` from `src/utils/storage.ts` / `src/utils/geometry.ts`:
`{x: number, y: number}`, embedded polymorphically so the smooth-curve builder
works over `ℚ` and the noise-driven sampler over `ℝ`. -/
structure Point (α : Type) where
  x : α
  y : α
deriving DecidableEq, Repr

/-- `Stroke` from `src/utils/storage.ts`. -/
structure Stroke where
  points : List (Point ℚ)
  color : String
  width : ℚ
  isEraser : Bool
deriving DecidableEq, Repr

/-- `DrawingFragment` from `src/utils/storage.ts`. -/
structure DrawingFragment where
  id : String
  frameNumber : ℤ
  author : String
  timestamp : ℚ
  strokes : List Stroke
  width : ℚ
  height : ℚ
deriving DecidableEq, Repr

/-! ## Frame numbering

`src/App.tsx` line 53: `const getFrameNumber = (time) => Math.floor(time / 100) + 1;`
`src/components/AnimationCanvas.tsx` (renderFrame): `const frame = Math.floor(time / 100) + 1;`
Both share the same formula; it is applied to the raw elapsed time. -/

/-- `getFrameNumber` from `src/App.tsx` (identical to the frame derivation in
`renderFrame` of `AnimationCanvas`). -/
def getFrameNumber (time : ℚ) : ℤ := ⌊time / 100⌋ + 1

/-! ## Smooth curve builder (`src/utils/geometry.ts`, `getSmoothPath`)

The source builds an SVG path string.  We embed it twice, mirroring the same
loop: `getSmoothPath` keeps the exact coordinates as structured segments
(`M` start, `Q control, endpoint` quadratics, final `T endpoint`), and
`getSmoothPathD` produces the emitted numeric tokens, where each coordinate
goes through `toFixed(1)` (represented as an integer count of tenths). -/

/-- One segment of the SVG path `d` attribute produced by `getSmoothPath`. -/
inductive Seg where
  | move (p : Point ℚ)
  | quad (control endpoint : Point ℚ)
  | smoothT (endpoint : Point ℚ)
deriving DecidableEq, Repr

/-- The loop body of `getSmoothPath`: for consecutive pairs `(p0, p1)` of the
remaining points, emit `Q p0, (p0+p1)/2`.  The source iterates
`i = 1 .. points.length - 2` over `points[i], points[i+1]`, i.e. over the
consecutive pairs of the tail of the point list. -/
def quadSegs : List (Point ℚ) → List Seg
  | p0 :: p1 :: rest =>
      Seg.quad p0 ⟨(p0.x + p1.x) / 2, (p0.y + p1.y) / 2⟩ :: quadSegs (p1 :: rest)
  | _ => []

/-- `getSmoothPath` from `src/utils/geometry.ts`, structured form with exact
coordinates: fewer than 2 points yields the empty path; otherwise
`M points[0]`, the quadratic loop over the tail, then
`T points[points.length - 1]`. -/
def getSmoothPath (points : List (Point ℚ)) : List Seg :=
  if points.length < 2 then []
  else
    Seg.move (points.getD 0 ⟨0, 0⟩) ::
      (quadSegs (points.drop 1) ++ [Seg.smoothT (points.getD (points.length - 1) ⟨0, 0⟩)])

/-- JavaScript `x.toFixed(1)` as an integer number of tenths: the integer `n`
minimizing `|n/10 - x|`, ties resolved to the larger `n` (ECMA-262,
`Number.prototype.toFixed`). -/
def toFixed1 (q : ℚ) : ℤ := ⌊q * 10 + 1 / 2⌋

/-- Numeric tokens of one structured segment after `toFixed(1)` formatting. -/
def segTokens : Seg → List ℤ
  | Seg.move p => [toFixed1 p.x, toFixed1 p.y]
  | Seg.quad c e => [toFixed1 c.x, toFixed1 c.y, toFixed1 e.x, toFixed1 e.y]
  | Seg.smoothT p => [toFixed1 p.x, toFixed1 p.y]

/-- Token stream of the quadratic loop of `getSmoothPath`, exactly as the
source appends `Q ${p0.x.toFixed(1)} ${p0.y.toFixed(1)}, ${midX.toFixed(1)}
${midY.toFixed(1)}` per iteration. -/
def quadTokens : List (Point ℚ) → List ℤ
  | p0 :: p1 :: rest =>
      toFixed1 p0.x :: toFixed1 p0.y ::
        toFixed1 ((p0.x + p1.x) / 2) :: toFixed1 ((p0.y + p1.y) / 2) ::
          quadTokens (p1 :: rest)
  | _ => []

/-- The numeric tokens of the string returned by `getSmoothPath`
(`src/utils/geometry.ts`): `M` tokens, the loop's `Q` tokens, and the final
`T` tokens, each coordinate formatted with `toFixed(1)`. -/
def getSmoothPathD (points : List (Point ℚ)) : List ℤ :=
  if points.length < 2 then []
  else
    toFixed1 (points.getD 0 ⟨0, 0⟩).x :: toFixed1 (points.getD 0 ⟨0, 0⟩).y ::
      (quadTokens (points.drop 1) ++
        [toFixed1 (points.getD (points.length - 1) ⟨0, 0⟩).x,
         toFixed1 (points.getD (points.length - 1) ⟨0, 0⟩).y])

/-- Modelled from the spec: "coordinates truncated to one decimal place" —
truncation toward zero of the tenths digit sequence, i.e. fractional digits
beyond the first are cut off.  This is the spec's formatting, to be compared
with the code's `toFixed(1)`. -/
def trunc1 (q : ℚ) : ℤ := if 0 ≤ q then ⌊q * 10⌋ else ⌈q * 10⌉

/-- Modelled from the spec: token stream of one segment under the spec's
one-decimal truncation. -/
def segTokensTrunc : Seg → List ℤ
  | Seg.move p => [trunc1 p.x, trunc1 p.y]
  | Seg.quad c e => [trunc1 c.x, trunc1 c.y, trunc1 e.x, trunc1 e.y]
  | Seg.smoothT p => [trunc1 p.x, trunc1 p.y]

/-- Modelled from the spec: the token stream the curve builder would emit if
every coordinate were truncated (not rounded) to one decimal place. -/
def truncatedTokens (points : List (Point ℚ)) : List ℤ :=
  (getSmoothPath points).flatMap segTokensTrunc

/-! ## Stroke playback (`src/components/AnimationCanvas.tsx`, lines 158-183)

Stored fragments for the current frame are replayed as SVG paths: a stroke
with fewer than 2 points yields nothing, an eraser stroke yields nothing,
any other stroke becomes `M p0 L p1 L p2 ...` through its stored points. -/

/-- One command of the replay path `d` string. -/
inductive PathCmd where
  | moveTo (p : Point ℚ)
  | lineTo (p : Point ℚ)
deriving DecidableEq, Repr

/-- `M p0 L p1 ... L pn` built from a stroke's point list, as in
`AnimationCanvas`: `M ${points[0]} ` + `points.slice(1).map(p => L ${p})`. -/
def strokePath : List (Point ℚ) → List PathCmd
  | [] => []
  | p :: rest => PathCmd.moveTo p :: rest.map PathCmd.lineTo

/-- The replay of a single stored stroke in `AnimationCanvas`:
`if (stroke.points.length < 2) return null; ... if (stroke.isEraser) return null;`
otherwise the polyline path is painted. -/
def renderStroke (s : Stroke) : Option (List PathCmd) :=
  if s.points.length < 2 then none
  else if s.isEraser then none
  else some (strokePath s.points)

/-- The point a replay path command paints through. -/
def cmdPoint : PathCmd → Point ℚ
  | PathCmd.moveTo p => p
  | PathCmd.lineTo p => p

/-! ## Persistence boundary (`src/utils/storage.ts`, `Storage`)

`localStorage` and `JSON` are external collaborators.  The store holds at most
one string under `STORAGE_KEY`; `getItem`/`setItem` may throw (storage
unavailable), and `JSON.parse` may throw (corrupt data).  The `try/catch`
blocks of the source become `Except` matches. -/

/-- Contents of `localStorage` at `STORAGE_KEY` (`none` = key absent). -/
structure StoreState where
  contents : Option String
deriving DecidableEq, Repr

/-- Fault model of the backing store: whether `getItem` / `setItem` throw. -/
structure StoreFaults where
  getThrows : Bool
  setThrows : Bool
deriving DecidableEq, Repr

/-- External `JSON` collaborator: `parse` may fail (corrupt serialized data),
`stringify` is total here (fragments are plain data, no cycles). -/
structure JsonCodec where
  parse : String → Except Unit (List DrawingFragment)
  stringify : List DrawingFragment → String

/-- `localStorage.getItem(STORAGE_KEY)` under the fault model. -/
def getItem (st : StoreState) (f : StoreFaults) : Except Unit (Option String) :=
  if f.getThrows then Except.error () else Except.ok st.contents

/-- `localStorage.setItem(STORAGE_KEY, s)` under the fault model. -/
def setItem (st : StoreState) (f : StoreFaults) (s : String) : Except Unit StoreState :=
  if f.setThrows then Except.error () else Except.ok ⟨some s⟩

namespace Storage

/-- `Storage.getAllFragments` from `src/utils/storage.ts`:
`try { const data = localStorage.getItem(KEY); return data ? JSON.parse(data) : []; }
catch (e) { console.error(...); return []; }`.
Note JavaScript truthiness: both `null` and the empty string fall to `[]`. -/
def getAllFragments (J : JsonCodec) (st : StoreState) (f : StoreFaults) :
    List DrawingFragment :=
  match getItem st f with
  | Except.error _ => []
  | Except.ok none => []
  | Except.ok (some data) =>
      if data = "" then []
      else
        match J.parse data with
        | Except.error _ => []
        | Except.ok l => l

/-- `Storage.saveFragment` from `src/utils/storage.ts`:
`try { const existing = getAllFragments(); existing.push(fragment);
localStorage.setItem(KEY, JSON.stringify(existing)); } catch (e) { console.error(...); }`.
On failure the error is logged and the store state is left unchanged. -/
def saveFragment (J : JsonCodec) (st : StoreState) (f : StoreFaults)
    (fragment : DrawingFragment) : StoreState :=
  let existing := getAllFragments J st f
  match setItem st f (J.stringify (existing ++ [fragment])) with
  | Except.ok st' => st'
  | Except.error _ => st

/-- `Storage.getFragmentsByFrame` from `src/utils/storage.ts`, read at one key:
the record maps each `frameNumber` to the fragments with that frame number, in
stored order. -/
def getFragmentsByFrame (all : List DrawingFragment) (frame : ℤ) :
    List DrawingFragment :=
  all.filter fun frag => frag.frameNumber == frame

end Storage

/-! ## Simplex noise (`src/utils/storage.ts` noise part, `SimplexNoise`)

Construction: `p` is `[0..255]` shuffled by a linear congruential generator
seeded from the constructor argument (`seed = Math.random()` by default),
then duplicated into the 512-entry `perm` and `permMod12` tables.

JavaScript specifics modelled exactly:
* `currentSeed % 4294967296` is the truncating remainder (`Int.tmod`);
* `Math.floor(nextRandom() * (i + 1))` equals `⌊c * (i+1) / 2^32⌋`
  (`Int.fdiv`) — exact, since all intermediates fit in 53-bit floats;
* the destructuring swap on a `Uint8Array` reads both cells first; a read at
  a negative index yields `undefined`, which a `Uint8Array` write coerces
  to `0`, and a write at a negative index is dropped. -/

/-- `grad3` from `src/utils/storage.ts` (flat triples of gradient vectors). -/
def grad3 : List ℤ :=
  [1, 1, 0, -1, 1, 0, 1, -1, 0, -1, -1, 0,
   1, 0, 1, -1, 0, 1, 1, 0, -1, -1, 0, -1,
   0, 1, 1, 0, -1, 1, 0, 1, -1, 0, -1, -1]

/-- Seed normalization in the constructor: a float seed strictly between 0 and
1 is rescaled by `Math.floor(seed * 4294967296)`, any other seed is floored. -/
def seedInit (seed : ℚ) : ℤ :=
  if seed < 1 ∧ 0 < seed then ⌊seed * 4294967296⌋ else ⌊seed⌋

/-- One LCG step: `currentSeed = (currentSeed * 1664525 + 1013904223) % 4294967296`
with JavaScript's truncating `%`. -/
def lcgNext (c : ℤ) : ℤ := (c * 1664525 + 1013904223).tmod 4294967296

/-- `Uint8Array` read `this.p[i]`: `some` value in range, `undefined` (here
`none`) out of range. -/
def uget (l : List ℕ) (i : ℤ) : Option ℕ :=
  if 0 ≤ i ∧ i.toNat < l.length then some (l.getD i.toNat 0) else none

/-- `Uint8Array` write `this.p[i] = v`: dropped out of range; the written
value is the read value with `undefined` coerced to `0`. -/
def uset (l : List ℕ) (i : ℤ) (v : ℕ) : List ℕ :=
  if 0 ≤ i ∧ i.toNat < l.length then l.set i.toNat v else l

/-- `[this.p[i], this.p[r]] = [this.p[r], this.p[i]]` on a `Uint8Array`:
both cells are read first, then written in order. -/
def jsSwap (l : List ℕ) (i r : ℤ) : List ℕ :=
  let vi := uget l i
  let vr := uget l r
  uset (uset l i (vr.getD 0)) r (vi.getD 0)

/-- One iteration of the constructor's shuffle loop at index `i`
(`i = 255` down to `1`): draw `r = Math.floor(nextRandom() * (i + 1))`
and swap `p[i]` with `p[r]`. -/
def shuffleStep (st : List ℕ × ℤ) (i : ℕ) : List ℕ × ℤ :=
  let c := lcgNext st.2
  let r := Int.fdiv (c * (i + 1)) 4294967296
  (jsSwap st.1 (i : ℤ) r, c)

/-- The shuffle loop `for (let i = 255; i > 0; i--)`, run from index `n`
down to `1`. -/
def shuffleFrom : ℕ → List ℕ × ℤ → List ℕ × ℤ
  | 0, st => st
  | i + 1, st => shuffleFrom i (shuffleStep st (i + 1))

/-- The 256-entry table `this.p` after construction with the given seed:
`[0..255]` shuffled by the seeded LCG. -/
def pTable (seed : ℚ) : List ℕ :=
  (shuffleFrom 255 (List.range 256, seedInit seed)).1

/-- The `SimplexNoise` instance state: `p` (256 entries), `perm` and
`permMod12` (512 entries each). -/
structure SimplexNoise where
  p : List ℕ
  perm : List ℕ
  permMod12 : List ℕ
deriving DecidableEq, Repr

/-- The `SimplexNoise` constructor, `constructor(seed: number = Math.random())`:
`rng` stands for the ambient `Math.random()` draw used only when no seed
argument is supplied.  `perm[i] = p[i & 255]`, `permMod12[i] = perm[i] % 12`. -/
def SimplexNoise.make (seedArg : Option ℚ) (rng : ℚ) : SimplexNoise :=
  let p := pTable (seedArg.getD rng)
  let perm := (List.range 512).map fun i => p.getD (i % 256) 0
  let permMod12 := (List.range 512).map fun i => perm.getD i 0 % 12
  ⟨p, perm, permMod12⟩

/-- `noise3D(xin, yin, zin)` from `src/utils/storage.ts`, over any linear
ordered field with a floor (instantiated at `ℚ` for exact evaluation and at
`ℝ` for the sampler).  `F3 = 1/3`, `G3 = 1/6`; `i & 255` on the 32-bit-wrapped
floor equals the nonnegative remainder `i.emod 256`. -/
def SimplexNoise.noise3D {K : Type} [LinearOrderedField K] [FloorRing K]
    (n : SimplexNoise) (xin yin zin : K) : K :=
  let s := (xin + yin + zin) * (1 / 3)
  let i : ℤ := ⌊xin + s⌋
  let j : ℤ := ⌊yin + s⌋
  let k : ℤ := ⌊zin + s⌋
  let t : K := ((i + j + k : ℤ) : K) * (1 / 6)
  let X0 := (i : K) - t
  let Y0 := (j : K) - t
  let Z0 := (k : K) - t
  let x0 := xin - X0
  let y0 := yin - Y0
  let z0 := zin - Z0
  let o : ℕ × ℕ × ℕ × ℕ × ℕ × ℕ :=
    if y0 ≤ x0 then
      if z0 ≤ y0 then (1, 0, 0, 1, 1, 0)
      else if z0 ≤ x0 then (1, 0, 0, 1, 0, 1)
      else (0, 0, 1, 1, 0, 1)
    else
      if y0 < z0 then (0, 0, 1, 0, 1, 1)
      else if x0 < z0 then (0, 1, 0, 0, 1, 1)
      else (0, 1, 0, 1, 1, 0)
  let i1 := o.1
  let j1 := o.2.1
  let k1 := o.2.2.1
  let i2 := o.2.2.2.1
  let j2 := o.2.2.2.2.1
  let k2 := o.2.2.2.2.2
  let x1 := x0 - (i1 : K) + 1 / 6
  let y1 := y0 - (j1 : K) + 1 / 6
  let z1 := z0 - (k1 : K) + 1 / 6
  let x2 := x0 - (i2 : K) + 2 * (1 / 6)
  let y2 := y0 - (j2 : K) + 2 * (1 / 6)
  let z2 := z0 - (k2 : K) + 2 * (1 / 6)
  let x3 := x0 - 1 + 3 * (1 / 6)
  let y3 := y0 - 1 + 3 * (1 / 6)
  let z3 := z0 - 1 + 3 * (1 / 6)
  let ii := (i.emod 256).toNat
  let jj := (j.emod 256).toNat
  let kk := (k.emod 256).toNat
  let g : ℕ → K := fun idx => ((grad3.getD idx 0 : ℤ) : K)
  let t0 := 6 / 10 - x0 * x0 - y0 * y0 - z0 * z0
  let n0 : K :=
    if t0 < 0 then 0
    else
      let gi0 := n.permMod12.getD (ii + n.perm.getD (jj + n.perm.getD kk 0) 0) 0 * 3
      t0 * t0 * (t0 * t0) * (g gi0 * x0 + g (gi0 + 1) * y0 + g (gi0 + 2) * z0)
  let t1 := 6 / 10 - x1 * x1 - y1 * y1 - z1 * z1
  let n1 : K :=
    if t1 < 0 then 0
    else
      let gi1 := n.permMod12.getD (ii + i1 + n.perm.getD (jj + j1 + n.perm.getD (kk + k1) 0) 0) 0 * 3
      t1 * t1 * (t1 * t1) * (g gi1 * x1 + g (gi1 + 1) * y1 + g (gi1 + 2) * z1)
  let t2 := 6 / 10 - x2 * x2 - y2 * y2 - z2 * z2
  let n2 : K :=
    if t2 < 0 then 0
    else
      let gi2 := n.permMod12.getD (ii + i2 + n.perm.getD (jj + j2 + n.perm.getD (kk + k2) 0) 0) 0 * 3
      t2 * t2 * (t2 * t2) * (g gi2 * x2 + g (gi2 + 1) * y2 + g (gi2 + 2) * z2)
  let t3 := 6 / 10 - x3 * x3 - y3 * y3 - z3 * z3
  let n3 : K :=
    if t3 < 0 then 0
    else
      let gi3 := n.permMod12.getD (ii + 1 + n.perm.getD (jj + 1 + n.perm.getD (kk + 1) 0) 0) 0 * 3
      t3 * t3 * (t3 * t3) * (g gi3 * x3 + g (gi3 + 1) * y3 + g (gi3 + 2) * z3)
  32 * (n0 + n1 + n2 + n3)

/-- `F2 = 0.5 * (Math.sqrt(3.0) - 1.0)` from `src/utils/storage.ts`. -/
noncomputable def F2 : ℝ := 0.5 * (Real.sqrt 3.0 - 1.0)

/-- `G2 = (3.0 - Math.sqrt(3.0)) / 6.0` from `src/utils/storage.ts`. -/
noncomputable def G2 : ℝ := (3.0 - Real.sqrt 3.0) / 6.0

/-- `noise2D(xin, yin)` from `src/utils/storage.ts` (its skew constants are
irrational, so it lives over `ℝ`). -/
noncomputable def SimplexNoise.noise2D (n : SimplexNoise) (xin yin : ℝ) : ℝ :=
  let s := (xin + yin) * F2
  let i : ℤ := ⌊xin + s⌋
  let j : ℤ := ⌊yin + s⌋
  let t : ℝ := ((i + j : ℤ) : ℝ) * G2
  let X0 := (i : ℝ) - t
  let Y0 := (j : ℝ) - t
  let x0 := xin - X0
  let y0 := yin - Y0
  let o : ℕ × ℕ := if y0 < x0 then (1, 0) else (0, 1)
  let i1 := o.1
  let j1 := o.2
  let x1 := x0 - (i1 : ℝ) + G2
  let y1 := y0 - (j1 : ℝ) + G2
  let x2 := x0 - 1.0 + 2.0 * G2
  let y2 := y0 - 1.0 + 2.0 * G2
  let ii := (i.emod 256).toNat
  let jj := (j.emod 256).toNat
  let g : ℕ → ℝ := fun idx => ((grad3.getD idx 0 : ℤ) : ℝ)
  let t0 := 0.5 - x0 * x0 - y0 * y0
  let n0 : ℝ :=
    if 0 ≤ t0 then
      let gi0 := n.permMod12.getD (ii + n.perm.getD jj 0) 0 * 3
      t0 * t0 * (t0 * t0) * (g gi0 * x0 + g (gi0 + 1) * y0)
    else 0
  let t1 := 0.5 - x1 * x1 - y1 * y1
  let n1 : ℝ :=
    if 0 ≤ t1 then
      let gi1 := n.permMod12.getD (ii + i1 + n.perm.getD (jj + j1) 0) 0 * 3
      t1 * t1 * (t1 * t1) * (g gi1 * x1 + g (gi1 + 1) * y1)
    else 0
  let t2 := 0.5 - x2 * x2 - y2 * y2
  let n2 : ℝ :=
    if 0 ≤ t2 then
      let gi2 := n.permMod12.getD (ii + 1 + n.perm.getD (jj + 1) 0) 0 * 3
      t2 * t2 * (t2 * t2) * (g gi2 * x2 + g (gi2 + 1) * y2)
    else 0
  70.0 * (n0 + n1 + n2)

/-! ## Helper lemmas -/

lemma getD_drop' {α : Type} (l : List α) (n k : ℕ) (d : α) :
    (l.drop n).getD k d = l.getD (n + k) d := by
  simp [List.getD_eq_getElem?_getD, List.getElem?_drop]

/-- Indexed characterization of the quadratic loop: on a list of length `m`
it emits `m - 1` quadratics, the `k`-th having control `l[k]` and endpoint
the midpoint of `l[k]` and `l[k+1]`. -/
lemma quadSegs_eq : ∀ l : List (Point ℚ),
    quadSegs l = (List.range (l.length - 1)).map (fun k =>
      Seg.quad (l.getD k ⟨0, 0⟩)
        ⟨((l.getD k ⟨0, 0⟩).x + (l.getD (k + 1) ⟨0, 0⟩).x) / 2,
         ((l.getD k ⟨0, 0⟩).y + (l.getD (k + 1) ⟨0, 0⟩).y) / 2⟩)
  | [] => rfl
  | [_] => rfl
  | a :: b :: r => by
    rw [quadSegs, quadSegs_eq (b :: r)]
    simp only [List.length_cons, Nat.add_sub_cancel]
    rw [List.range_succ_eq_map, List.map_cons, List.map_map]
    simp [Function.comp_def]

/-- The emitted tokens of the quadratic loop are the `toFixed(1)` images of
the structural quadratic segments' coordinates. -/
lemma quadTokens_eq : ∀ l : List (Point ℚ),
    quadTokens l = (quadSegs l).flatMap segTokens
  | [] => rfl
  | [_] => rfl
  | a :: b :: r => by
    rw [quadTokens, quadSegs, quadTokens_eq (b :: r)]
    simp [segTokens]

/-! ## C4 — structure of the smooth curve -/

/-- C4: `getSmoothPath` on fewer than 2 points returns the empty path; on
`N ≥ 2` points it returns the start `M points[0]`, then `N - 2` interior
quadratic segments (the one for interior point `k+1` having control point
`points[k+1]` and endpoint the midpoint of `points[k+1]` and `points[k+2]`),
then one closing smooth segment ending exactly at the last point.  For
`N = 2` the quadratic block is empty and a single smooth segment terminates
at the second point. -/
theorem getSmoothPath_structure (pts : List (Point ℚ)) :
    (pts.length < 2 → getSmoothPath pts = []) ∧
    (2 ≤ pts.length →
      getSmoothPath pts =
        Seg.move (pts.getD 0 ⟨0, 0⟩) ::
          ((List.range (pts.length - 2)).map (fun k =>
            Seg.quad (pts.getD (k + 1) ⟨0, 0⟩)
              ⟨((pts.getD (k + 1) ⟨0, 0⟩).x + (pts.getD (k + 2) ⟨0, 0⟩).x) / 2,
               ((pts.getD (k + 1) ⟨0, 0⟩).y + (pts.getD (k + 2) ⟨0, 0⟩).y) / 2⟩) ++
            [Seg.smoothT (pts.getD (pts.length - 1) ⟨0, 0⟩)])) := by
  constructor
  · intro h
    simp [getSmoothPath, h]
  · intro h
    have h2 : ¬ pts.length < 2 := by omega
    rw [getSmoothPath, if_neg h2, quadSegs_eq]
    have hlen : (pts.drop 1).length - 1 = pts.length - 2 := by
      simp [List.length_drop]
      omega
    rw [hlen]
    congr 2
    apply List.map_congr_left
    intro k _
    simp only [getD_drop']
    rw [Nat.add_comm 1 k, Nat.add_comm 1 (k + 1)]

/-- Witness for C4 at a concrete 3-point list. -/
theorem getSmoothPath_structure_witness :
    getSmoothPath [⟨0, 0⟩, ⟨2, 2⟩, ⟨4, 0⟩] =
      [Seg.move ⟨0, 0⟩, Seg.quad ⟨2, 2⟩ ⟨3, 1⟩, Seg.smoothT ⟨4, 0⟩] := by
  rw [(getSmoothPath_structure [⟨0, 0⟩, ⟨2, 2⟩, ⟨4, 0⟩]).2 (by norm_num)]
  norm_num [List.range_succ]

/-! ## C9 — numeric formatting of the emitted path -/

/-- C9 counterexample: the claim says each emitted numeric token is the exact
coordinate with fractional digits beyond the first cut off (truncation).  At
the point list `[(0,0), (0.25, 0)]` the code emits `0.3` (`toFixed(1)` rounds
to nearest, ties to the larger value) where truncation gives `0.2`. -/
theorem getSmoothPathD_not_truncated :
    getSmoothPathD [⟨0, 0⟩, ⟨1 / 4, 0⟩] ≠ truncatedTokens [⟨0, 0⟩, ⟨1 / 4, 0⟩] := by
  have h1 : getSmoothPathD [⟨0, 0⟩, ⟨1 / 4, 0⟩] = [0, 0, 3, 0] := by
    norm_num [getSmoothPathD, quadTokens, toFixed1]
  have h2 : truncatedTokens [⟨0, 0⟩, ⟨1 / 4, 0⟩] = [0, 0, 2, 0] := by
    norm_num [truncatedTokens, getSmoothPath, quadSegs, segTokensTrunc, trunc1]
  rw [h1, h2]
  decide

/-- C9 (amended): every numeric token of the emitted path string is the
corresponding exact coordinate of the structural curve formatted by
`toFixed(1)` — rounding to the nearest tenth, ties resolved upward — rather
than truncated. -/
theorem getSmoothPathD_eq_rounded (pts : List (Point ℚ)) :
    getSmoothPathD pts = (getSmoothPath pts).flatMap segTokens := by
  unfold getSmoothPathD getSmoothPath
  by_cases h : pts.length < 2
  · simp [h]
  · simp only [h, if_false, quadTokens_eq]
    simp [segTokens]

/-! ## C10 — stroke replay -/

/-- C10: replaying a stored fragment's stroke paints nothing exactly when the
stroke is an eraser stroke or has fewer than 2 points; any painted stroke is
a polyline visiting precisely its stored points in stored order. -/
theorem renderStroke_spec (s : Stroke) :
    (renderStroke s = none ↔ s.isEraser = true ∨ s.points.length < 2) ∧
    (∀ cs, renderStroke s = some cs → cs.map cmdPoint = s.points) := by
  constructor
  · unfold renderStroke
    by_cases h1 : s.points.length < 2
    · simp [h1]
    · by_cases h2 : s.isEraser <;> simp [h1, h2]
  · intro cs hcs
    unfold renderStroke at hcs
    by_cases h1 : s.points.length < 2
    · simp [h1] at hcs
    · by_cases h2 : s.isEraser
      · simp [h1, h2] at hcs
      · rw [if_neg h1, if_neg h2] at hcs
        have hcs' := Option.some.inj hcs
        rw [← hcs']
        cases hp : s.points with
        | nil => simp [strokePath]
        | cons p rest =>
            simp [strokePath, List.map_map, cmdPoint, Function.comp_def]

/-- Witness for C10 at a concrete non-eraser two-point stroke. -/
theorem renderStroke_spec_witness :
    List.map cmdPoint (strokePath [⟨0, 0⟩, ⟨1, 2⟩]) = ([⟨0, 0⟩, ⟨1, 2⟩] : List (Point ℚ)) :=
  (renderStroke_spec ⟨[⟨0, 0⟩, ⟨1, 2⟩], "black", 4, false⟩).2 _ (by decide)

/-! ## C1 — frame correspondence and the missing loop wrap -/

/-- A fragment caught while frozen at elapsed time `T = 0`, as built by
`handleSubmitDrawing` in `src/App.tsx`: its `frameNumber` is
`getFrameNumber(frozenTime)`. -/
def fragAtTimeZero : DrawingFragment :=
  ⟨"frag-0", getFrameNumber 0, "anon", 0, [], 800, 600⟩

/-- C1: the fragment frozen at `T = 0` is stored with frame number
`⌊0/100⌋ + 1 = 1` and is selected for display exactly at rendered frame
index 1 — but the rendered frame index derived at elapsed time
`T + 60000 = 60000` is `601`, not `1`: the code never reduces elapsed time
modulo the loop duration, so the index exceeds the loop length `600` and the
fragment is not overlaid when the visual loop repeats. -/
theorem frameIndex_no_wrap :
    getFrameNumber 0 = 1 ∧
    getFrameNumber (0 + 60000) = 601 ∧
    getFrameNumber (0 + 60000) ≠ getFrameNumber 0 ∧
    ¬ getFrameNumber (0 + 60000) ≤ 600 ∧
    fragAtTimeZero ∈ Storage.getFragmentsByFrame [fragAtTimeZero] (getFrameNumber 0) ∧
    fragAtTimeZero ∉ Storage.getFragmentsByFrame [fragAtTimeZero] (getFrameNumber (0 + 60000)) := by
  have h0 : getFrameNumber 0 = 1 := by norm_num [getFrameNumber]
  have h6 : getFrameNumber (0 + 60000) = 601 := by norm_num [getFrameNumber]
  refine ⟨h0, h6, ?_, ?_, ?_, ?_⟩
  · rw [h0, h6]; decide
  · rw [h6]; decide
  · simp [Storage.getFragmentsByFrame, fragAtTimeZero, h0]
  · have h6' : getFrameNumber 60000 = 601 := by norm_num [getFrameNumber]
    simp [Storage.getFragmentsByFrame, fragAtTimeZero, h0, h6']

/-! ## C8 — persistence failures are non-fatal -/

/-- C8: an unavailable store (`getItem` throws) or corrupt serialized data
(`JSON.parse` fails) makes `getAllFragments` return the empty collection, and
a failing save (`setItem` throws) leaves the stored state unchanged; none of
these paths escape the `try/catch` boundaries. -/
theorem storage_failures_nonfatal (J : JsonCodec) (st : StoreState) (f : StoreFaults)
    (fragment : DrawingFragment) :
    (f.getThrows = true → Storage.getAllFragments J st f = []) ∧
    (∀ data, st.contents = some data → J.parse data = Except.error () →
      Storage.getAllFragments J st f = []) ∧
    (f.setThrows = true → Storage.saveFragment J st f fragment = st) := by
  refine ⟨?_, ?_, ?_⟩
  · intro h
    simp [Storage.getAllFragments, getItem, h]
  · intro data hdata hparse
    unfold Storage.getAllFragments getItem
    by_cases hg : f.getThrows
    · simp [hg]
    · simp only [hg, if_false, hdata]
      by_cases he : data = "" <;> simp [he, hparse]
  · intro h
    simp [Storage.saveFragment, setItem, h]

/-- A `JSON` collaborator whose `parse` always fails (corrupt data). -/
def badCodec : JsonCodec := ⟨fun _ => Except.error (), fun _ => ""⟩

/-- Witness for C8: corrupt stored data loads as the empty collection, and a
save against a throwing `setItem` leaves the store unchanged. -/
theorem storage_failures_nonfatal_witness :
    Storage.getAllFragments badCodec ⟨some "corrupt"⟩ ⟨false, true⟩ = [] ∧
    Storage.saveFragment badCodec ⟨some "corrupt"⟩ ⟨false, true⟩
      ⟨"id", 1, "a", 0, [], 1, 1⟩ = ⟨some "corrupt"⟩ :=
  ⟨(storage_failures_nonfatal badCodec ⟨some "corrupt"⟩ ⟨false, true⟩
      ⟨"id", 1, "a", 0, [], 1, 1⟩).2.1 "corrupt" rfl rfl,
   (storage_failures_nonfatal badCodec ⟨some "corrupt"⟩ ⟨false, true⟩
      ⟨"id", 1, "a", 0, [], 1, 1⟩).2.2 rfl⟩

/-! ## C2 — seeded construction is deterministic -/

/-- C2: with an explicit seed the constructor never consults the ambient
`Math.random()` source (`rng`), so two independently constructed generators
with the same seed have identical permutation tables and `noise3D` returns
bit-identical results for identical arguments. -/
theorem noise3D_deterministic (s r1 r2 : ℚ) :
    SimplexNoise.make (some s) r1 = SimplexNoise.make (some s) r2 ∧
    ∀ x y z : ℚ,
      (SimplexNoise.make (some s) r1).noise3D x y z
        = (SimplexNoise.make (some s) r2).noise3D x y z :=
  ⟨rfl, fun _ _ _ => rfl⟩

/-! ## C7 — the shuffled table is a permutation (nonnegative seeds) -/

lemma set_cons_multiset : ∀ (l : List ℕ) (n : ℕ), n < l.length → ∀ v : ℕ,
    (l.getD n 0) ::ₘ ((l.set n v : List ℕ) : Multiset ℕ) = v ::ₘ (l : Multiset ℕ)
  | [], n, h, v => by simp at h
  | a :: t, 0, _, v => by
      simp only [List.getD_cons_zero, List.set_cons_zero]
      rw [← Multiset.cons_coe, ← Multiset.cons_coe, Multiset.cons_swap]
  | a :: t, n + 1, h, v => by
      simp only [List.getD_cons_succ, List.set_cons_succ]
      rw [← Multiset.cons_coe, ← Multiset.cons_coe, Multiset.cons_swap,
        set_cons_multiset t n (by simpa using h) v, Multiset.cons_swap]

lemma jsSwap_eq_of_valid (l : List ℕ) (i r : ℤ) (hi0 : 0 ≤ i) (hi : i.toNat < l.length)
    (hr0 : 0 ≤ r) (hr : r.toNat < l.length) :
    jsSwap l i r = (l.set i.toNat (l.getD r.toNat 0)).set r.toNat (l.getD i.toNat 0) := by
  simp [jsSwap, uget, uset, hi0, hi, hr0, hr, List.length_set]

lemma jsSwap_multiset (l : List ℕ) (i r : ℤ) (hi0 : 0 ≤ i) (hi : i.toNat < l.length)
    (hr0 : 0 ≤ r) (hr : r.toNat < l.length) :
    ((jsSwap l i r : List ℕ) : Multiset ℕ) = (l : Multiset ℕ) := by
  rw [jsSwap_eq_of_valid l i r hi0 hi hr0 hr]
  have hA : ((l.set i.toNat (l.getD r.toNat 0)).getD r.toNat 0) = l.getD r.toNat 0 := by
    by_cases hmn : i.toNat = r.toNat
    · simp [List.getD_eq_getElem?_getD, List.getElem?_set, hmn, hr]
    · simp [List.getD_eq_getElem?_getD, List.getElem?_set_ne hmn]
  have h1 := set_cons_multiset (l.set i.toNat (l.getD r.toNat 0)) r.toNat
    (by simpa [List.length_set] using hr) (l.getD i.toNat 0)
  rw [hA] at h1
  have h2 := set_cons_multiset l i.toNat hi (l.getD r.toNat 0)
  rw [h2] at h1
  exact (Multiset.cons_inj_right _).1 h1

lemma lcgNext_bounds (c : ℤ) (hc : 0 ≤ c) : 0 ≤ lcgNext c ∧ lcgNext c < 4294967296 := by
  unfold lcgNext
  have h1 : 0 ≤ c * 1664525 + 1013904223 := by
    have := mul_nonneg hc (by norm_num : (0 : ℤ) ≤ 1664525)
    omega
  rw [Int.tmod_eq_emod h1 (by norm_num)]
  exact ⟨Int.emod_nonneg _ (by norm_num), Int.emod_lt_of_pos _ (by norm_num)⟩

lemma shuffle_r_bounds (c j : ℤ) (hc0 : 0 ≤ c) (hc : c < 4294967296) (hj : 0 ≤ j) :
    0 ≤ Int.fdiv (c * (j + 1)) 4294967296 ∧ Int.fdiv (c * (j + 1)) 4294967296 ≤ j := by
  rw [Int.fdiv_eq_ediv _ (by norm_num)]
  have hpos : (0 : ℤ) < j + 1 := by omega
  constructor
  · exact Int.ediv_nonneg (mul_nonneg hc0 (by omega)) (by norm_num)
  · have hlt : c * (j + 1) < (j + 1) * 4294967296 := by
      calc c * (j + 1) < 4294967296 * (j + 1) := mul_lt_mul_of_pos_right hc hpos
        _ = (j + 1) * 4294967296 := by ring
    have h2 : c * (j + 1) / 4294967296 < j + 1 :=
      (Int.ediv_lt_iff_lt_mul (by norm_num)).2 hlt
    omega

lemma seedInit_nonneg (s : ℚ) (hs : 0 ≤ s) : 0 ≤ seedInit s := by
  unfold seedInit
  by_cases h : s < 1 ∧ 0 < s
  · rw [if_pos h]
    refine Int.le_floor.2 ?_
    push_cast
    exact mul_nonneg hs (by norm_num)
  · rw [if_neg h]
    refine Int.le_floor.2 ?_
    push_cast
    exact hs

/-- The multiset of table entries is preserved through the shuffle loop run
from any index `n ≤ 255`, for a nonnegative LCG state. -/
lemma shuffleFrom_invariant (n : ℕ) : n ≤ 255 → ∀ st : List ℕ × ℤ,
    ((st.1 : List ℕ) : Multiset ℕ) = ((List.range 256 : List ℕ) : Multiset ℕ) →
    0 ≤ st.2 →
    (((shuffleFrom n st).1 : List ℕ) : Multiset ℕ)
      = ((List.range 256 : List ℕ) : Multiset ℕ) := by
  induction n with
  | zero => intro _ st hm _; exact hm
  | succ n ih =>
      intro hn st hm hc
      rw [shuffleFrom]
      have hlen : st.1.length = 256 := by
        have hcard := congrArg Multiset.card hm
        simpa using hcard
      have hcb := lcgNext_bounds st.2 hc
      have hrb := shuffle_r_bounds (lcgNext st.2) ((n + 1 : ℕ) : ℤ) hcb.1 hcb.2 (by omega)
      refine ih (by omega) _ ?_ hcb.1
      show ((jsSwap st.1 ((n + 1 : ℕ) : ℤ)
      (Int.fdiv (lcgNext st.2 * (((n + 1 : ℕ) : ℤ) + 1)) 4294967296) : List ℕ) : Multiset ℕ) = _
      rw [jsSwap_multiset _ _ _ (by omega) (by omega) hrb.1 (by omega)]
      exact hm

/-- C7 (amended to nonnegative seeds): after construction the 256-entry table
is a permutation of `0..255` produced by the LCG shuffle (float seeds in
`(0,1)` are rescaled to an integer range first), and the duplicated 512-entry
tables wrap: `perm[i] = p[i mod 256]` and `permMod12[i] = perm[i] mod 12` for
every `i < 512`. -/
theorem simplexTables_spec (s rng : ℚ) (hs : 0 ≤ s) :
    ((SimplexNoise.make (some s) rng).p).Perm (List.range 256) ∧
    ∀ i : ℕ, i < 512 →
      (SimplexNoise.make (some s) rng).perm.getD i 0
        = (SimplexNoise.make (some s) rng).p.getD (i % 256) 0 ∧
      (SimplexNoise.make (some s) rng).permMod12.getD i 0
        = (SimplexNoise.make (some s) rng).perm.getD i 0 % 12 := by
  constructor
  · rw [← Multiset.coe_eq_coe]
    show (((shuffleFrom 255 (List.range 256, seedInit s)).1 : List ℕ) : Multiset ℕ) = _
    exact shuffleFrom_invariant 255 (le_refl 255) (List.range 256, seedInit s) rfl
      (seedInit_nonneg s hs)
  · intro i hi
    have hp : (SimplexNoise.make (some s) rng).p = pTable s := rfl
    have hperm : (SimplexNoise.make (some s) rng).perm
        = (List.range 512).map (fun k => (pTable s).getD (k % 256) 0) := rfl
    have hpm : (SimplexNoise.make (some s) rng).permMod12
        = (List.range 512).map (fun k =>
            ((List.range 512).map fun j => (pTable s).getD (j % 256) 0).getD k 0 % 12) := rfl
    rw [hp, hperm, hpm]
    constructor
    · simp [List.getD_eq_getElem?_getD, List.getElem?_map, List.getElem?_range, hi]
    · simp [List.getD_eq_getElem?_getD, List.getElem?_map, List.getElem?_range, hi]

/-- Witness for C7 at the repository's fixed seed 12345. -/
theorem simplexTables_spec_witness :
    (0 ≤ (12345 : ℚ)) ∧
    ((SimplexNoise.make (some 12345) 0).p).Perm (List.range 256) :=
  ⟨by norm_num, (simplexTables_spec 12345 0 (by norm_num)).1⟩

/-- The defining successor equation of the shuffle loop. -/
lemma shuffleFrom_succ (n : ℕ) (st : List ℕ × ℤ) :
    shuffleFrom (n + 1) st = shuffleFrom n (shuffleStep st (n + 1)) := rfl

/-- The constructed `p` field is the seeded LCG shuffle of `[0..255]`. -/
lemma make_p_eq (seedArg : Option ℚ) (rng : ℚ) :
    (SimplexNoise.make seedArg rng).p = pTable (seedArg.getD rng) := rfl

lemma mem_uset (l : List ℕ) (i : ℤ) (v a : ℕ) (ha : a ∈ uset l i v) : a ∈ l ∨ a = v := by
  unfold uset at ha
  by_cases h : 0 ≤ i ∧ i.toNat < l.length
  · rw [if_pos h] at ha
    exact List.mem_or_eq_of_mem_set ha
  · rw [if_neg h] at ha
    exact Or.inl ha

lemma uget_getD_mem_or_zero (l : List ℕ) (j : ℤ) :
    (uget l j).getD 0 ∈ l ∨ (uget l j).getD 0 = 0 := by
  unfold uget
  by_cases h : 0 ≤ j ∧ j.toNat < l.length
  · rw [if_pos h]
    refine Or.inl ?_
    simp only [Option.getD_some]
    rw [List.getD_eq_getElem?_getD, List.getElem?_eq_getElem h.2, Option.getD_some]
    exact List.getElem_mem h.2
  · rw [if_neg h]
    exact Or.inr rfl

lemma mem_jsSwap (l : List ℕ) (i r : ℤ) (a : ℕ) (ha : a ∈ jsSwap l i r) :
    a ∈ l ∨ a = 0 := by
  unfold jsSwap at ha
  rcases mem_uset _ _ _ _ ha with h1 | h1
  · rcases mem_uset _ _ _ _ h1 with h2 | h2
    · exact Or.inl h2
    · rcases uget_getD_mem_or_zero l r with h3 | h3
      · exact Or.inl (h2 ▸ h3)
      · exact Or.inr (h2.trans h3)
  · rcases uget_getD_mem_or_zero l i with h3 | h3
    · exact Or.inl (h1 ▸ h3)
    · exact Or.inr (h1.trans h3)

/-- A nonzero value absent from the table can never reappear: swaps only move
existing entries around, and clobbered writes store `0`. -/
lemma not_mem_shuffleFrom (x : ℕ) (hx : x ≠ 0) (n : ℕ) : ∀ st : List ℕ × ℤ,
    x ∉ st.1 → x ∉ (shuffleFrom n st).1 := by
  induction n with
  | zero => intro st h; exact h
  | succ n ih =>
      intro st h
      rw [shuffleFrom]
      refine ih _ ?_
      intro hmem
      rcases mem_jsSwap _ _ _ _ hmem with h1 | h1
      · exact h h1
      · exact hx h1

/-- C7 counterexample: with seed `-4294967296` the LCG state stays negative,
the very first draw is `r = -196`, and the `Uint8Array` swap at `(255, -196)`
overwrites `p[255]` (holding the value 255) with `0` — the value 255 is
destroyed, so the constructed table is not a permutation of `0..255`. -/
theorem simplexTables_not_perm_negative_seed :
    ¬ ((SimplexNoise.make (some (-4294967296)) 0).p).Perm (List.range 256) := by
  intro hperm
  have hseed : seedInit (-4294967296) = -4294967296 := by
    unfold seedInit
    rw [if_neg (by norm_num)]
    norm_num
  have hstep1 : shuffleStep (List.range 256, seedInit (-4294967296)) 255
      = ((List.range 256).set 255 0, -3281063073) := by
    rw [hseed]
    decide
  have h255 : (255 : ℕ) ∈ (SimplexNoise.make (some (-4294967296)) 0).p :=
    hperm.mem_iff.mpr (by simp)
  have habs : (255 : ℕ) ∉ (SimplexNoise.make (some (-4294967296)) 0).p := by
    rw [make_p_eq]
    have hgd : Option.getD (some ((-4294967296 : ℚ))) 0 = (-4294967296 : ℚ) := rfl
    rw [hgd]
    have hunf : shuffleFrom 255 (List.range 256, seedInit (-4294967296))
        = shuffleFrom 254 (shuffleStep (List.range 256, seedInit (-4294967296)) 255) :=
      shuffleFrom_succ 254 _
    unfold pTable
    rw [hunf, hstep1]
    exact not_mem_shuffleFrom 255 (by decide) 254 _ (by decide)
  exact habs h255

/-! ## Path sampler (`src/components/AnimationCanvas.tsx`, `generatePoints`)

Configuration constants of `AnimationCanvas` and the session noise instance
(`new SimplexNoise(FIXED_SEED)` on mount). -/

/-- `POINT_COUNT = 7`. -/
def POINT_COUNT : ℕ := 7

/-- `SPATIAL_FREQUENCY = 0.3`. -/
def SPATIAL_FREQUENCY : ℝ := 0.3

/-- `LOOP_DURATION_MS = LOOP_MINUTES * 60 * 1000 = 60000`. -/
def LOOP_DURATION_MS : ℝ := 1 * 60 * 1000

/-- `NOISE_RADIUS = 86`. -/
def NOISE_RADIUS : ℝ := 86

/-- `FIXED_SEED = 12345`. -/
def FIXED_SEED : ℚ := 12345

/-- The session noise source: `noiseRef.current = new SimplexNoise(FIXED_SEED)`. -/
def noiseInstance : SimplexNoise := SimplexNoise.make (some FIXED_SEED) 0

/-- JavaScript truncation toward zero on (real-embedded) numbers. -/
noncomputable def jsTrunc (x : ℝ) : ℤ := if 0 ≤ x then ⌊x⌋ else ⌈x⌉

/-- JavaScript `a % b` on numbers: the remainder carries the sign of the
dividend, `a - b * trunc(a / b)`. -/
noncomputable def jsRem (a b : ℝ) : ℝ := a - b * (jsTrunc (a / b) : ℝ)

/-- `generatePoints(elapsedTime, width, height)` from `AnimationCanvas`:
embed time as an angle on a circle of radius `NOISE_RADIUS` in noise space,
then perturb 7 evenly spaced base points; x is perturbed only at interior
indices, y everywhere. -/
noncomputable def generatePoints (elapsedTime width height : ℝ) : List (Point ℝ) :=
  let angle := jsRem elapsedTime LOOP_DURATION_MS / LOOP_DURATION_MS * Real.pi * 2
  let timeX := Real.cos angle * NOISE_RADIUS
  let timeY := Real.sin angle * NOISE_RADIUS
  let drawWidth := width
  (List.range POINT_COUNT).map fun (i : ℕ) =>
    let t : ℝ := (i : ℝ) / ((POINT_COUNT : ℝ) - 1)
    let baseX := drawWidth * t
    let baseY := height / 2
    let noiseValX := noiseInstance.noise3D ((i : ℝ) * SPATIAL_FREQUENCY) (10 + timeX) (10 + timeY)
    let noiseValY :=
      noiseInstance.noise3D ((i : ℝ) * SPATIAL_FREQUENCY + 100) (20 + timeX) (20 + timeY)
    let x := baseX + (if i ≠ 0 ∧ i ≠ POINT_COUNT - 1 then noiseValX * (width * 0.15) else 0)
    let y := baseY + noiseValY * (height * 0.4)
    ⟨x, y⟩

/-- Adding one full period to the dividend either leaves the JavaScript
remainder unchanged, or (for dividends strictly between `-L` and `0`)
shifts it by exactly one period. -/
lemma jsRem_add_self (t L : ℝ) (hL : 0 < L) :
    jsRem (t + L) L = jsRem t L ∨ jsRem (t + L) L = jsRem t L + L := by
  have hL0 : L ≠ 0 := ne_of_gt hL
  have hdiv : (t + L) / L = t / L + 1 := by
    rw [add_div, div_self hL0]
  unfold jsRem
  rw [hdiv]
  set u := t / L with hu
  rcases le_or_lt 0 u with h0 | h0
  · left
    unfold jsTrunc
    rw [if_pos h0, if_pos (by linarith : (0 : ℝ) ≤ u + 1), Int.floor_add_one]
    push_cast
    ring
  · rcases lt_or_le (-1) u with h1 | h1
    · -- -1 < u < 0 : the remainder shifts by one period
      right
      unfold jsTrunc
      have hc : ⌈u⌉ = 0 := by
        rw [Int.ceil_eq_zero_iff]
        exact ⟨h1, le_of_lt h0⟩
      have hf : ⌊u + 1⌋ = 0 := by
        rw [Int.floor_eq_zero_iff]
        exact ⟨by linarith, by linarith⟩
      rw [if_neg (not_le.2 h0), if_pos (by linarith : (0 : ℝ) ≤ u + 1), hc, hf]
      push_cast
      ring
    · -- u ≤ -1 : the remainder is unchanged
      left
      rcases eq_or_lt_of_le h1 with he | hlt
      · -- u = -1 exactly
        unfold jsTrunc
        rw [he]
        norm_num
        rw [show ((-1 : ℝ)) = ((-1 : ℤ) : ℝ) by norm_num, Int.ceil_intCast]
        push_cast
        ring
      · -- u < -1, so u + 1 < 0 and both truncations are ceilings
        unfold jsTrunc
        rw [if_neg (not_le.2 h0), if_neg (not_le.2 (by linarith : u + 1 < 0)),
          Int.ceil_add_one]
        push_cast
        ring

/-! ## C3 — loop seamlessness of the sampler -/

/-- C3: `generatePoints(t + 60000, w, h)` equals `generatePoints(t, w, h)`
for every real elapsed time and every width and height: the loop-phase angle
moves by a full turn (or not at all), `cos`/`sin` agree, so every noise
sample and hence every emitted point coincides. -/
theorem generatePoints_periodic (t w h : ℝ) :
    generatePoints (t + 60000) w h = generatePoints t w h := by
  have h60 : (60000 : ℝ) = LOOP_DURATION_MS := by norm_num [LOOP_DURATION_MS]
  rw [h60]
  have hcs :
      Real.cos (jsRem (t + LOOP_DURATION_MS) LOOP_DURATION_MS / LOOP_DURATION_MS * Real.pi * 2)
        = Real.cos (jsRem t LOOP_DURATION_MS / LOOP_DURATION_MS * Real.pi * 2) ∧
      Real.sin (jsRem (t + LOOP_DURATION_MS) LOOP_DURATION_MS / LOOP_DURATION_MS * Real.pi * 2)
        = Real.sin (jsRem t LOOP_DURATION_MS / LOOP_DURATION_MS * Real.pi * 2) := by
    have hLpos : (0 : ℝ) < LOOP_DURATION_MS := by norm_num [LOOP_DURATION_MS]
    have hL0 : (LOOP_DURATION_MS : ℝ) ≠ 0 := ne_of_gt hLpos
    rcases jsRem_add_self t LOOP_DURATION_MS hLpos with hr | hr
    · rw [hr]
      exact ⟨rfl, rfl⟩
    · have hang :
          jsRem (t + LOOP_DURATION_MS) LOOP_DURATION_MS / LOOP_DURATION_MS * Real.pi * 2
            = jsRem t LOOP_DURATION_MS / LOOP_DURATION_MS * Real.pi * 2 + 2 * Real.pi := by
        rw [hr, add_div, div_self hL0]
        ring
      rw [hang, Real.cos_add_two_pi, Real.sin_add_two_pi]
      exact ⟨rfl, rfl⟩
  simp only [generatePoints]
  rw [hcs.1, hcs.2]

/-! ## C5 — endpoint pinning -/

/-- C5: for every elapsed time, width and height, `generatePoints` returns 7
points; point 0 has `x = 0` and point 6 has `x = width` — the noise term is
added to `x` only at interior indices, so the curve stays pinned to both
horizontal edges. -/
theorem generatePoints_endpoints (t w h : ℝ) :
    (generatePoints t w h).length = 7 ∧
    ((generatePoints t w h).getD 0 ⟨0, 0⟩).x = 0 ∧
    ((generatePoints t w h).getD 6 ⟨0, 0⟩).x = w := by
  refine ⟨?_, ?_, ?_⟩
  · simp [generatePoints, POINT_COUNT]
  · simp only [generatePoints]
    rw [List.getD_eq_getElem?_getD, List.getElem?_map,
      List.getElem?_range (by norm_num [POINT_COUNT] : 0 < POINT_COUNT)]
    simp [POINT_COUNT]
  · simp only [generatePoints]
    rw [List.getD_eq_getElem?_getD, List.getElem?_map,
      List.getElem?_range (by norm_num [POINT_COUNT] : 6 < POINT_COUNT)]
    simp [POINT_COUNT]
    norm_num
